import Mathlib

/-!
Verification development for the energy dashboard's data-normalization and
numeric-scaling core.

The embedding covers:

* the robust price range computation and the dynamic color scale of
  `EuropePriceMap.tsx` (the `minPrice`/`maxPrice` memo and
  `calculateDynamicColor`), together with the zone-to-region table
  `ZONE_TO_ISO3` and the per-hour price map (`priceMap` memo);
* the chart payload normalizer `renderChart` of `ChatInterface.tsx`,
  modelling the loosely-typed agent payloads as a JSON-like value type and
  each "Caso" adaptation rule as a pure transformation;
* the series styling and legend-click toggle of `ForecastsChart`.

JavaScript numbers are modelled as rationals (`ℚ`); `null` is a distinct
JSON value; `undefined` field reads are modelled with `Option`.  The
normalizer in the source mutates `chartPayload` in place; the embedding
threads the value purely, which is observationally equivalent because the
raw payload is only re-read on the failure path, and no adaptation rule can
have fired on that path (every rule that fires installs a truthy
`data.datasets`, which makes the final validation succeed).
-/

namespace EnergySensemaker

/-- JS `String.prototype.toLowerCase()`, modelled as per-character case
mapping (the two agree on the ASCII strings compared in this code). -/
def jsToLower (s : String) : String := String.mk (s.data.map Char.toLower)

/-- JS `String.prototype.toUpperCase()`, modelled as per-character case
mapping (the two agree on the ASCII zone codes of the lookup table). -/
def jsToUpper (s : String) : String := String.mk (s.data.map Char.toUpper)

/-- JSON-like dynamic value, the shape of decoded agent payloads.  JS
`undefined` is not a value here; an absent object field reads back as
`Option.none`. -/
inductive JsonValue where
  | null
  | bool (b : Bool)
  | num (q : ℚ)
  | str (s : String)
  | arr (elems : List JsonValue)
  | obj (fields : List (String × JsonValue))

/-- JavaScript truthiness of a value (`NaN` is not representable in `ℚ` and
does not occur in the payloads the claims quantify over). -/
def truthy : JsonValue → Bool
  | .null => false
  | .bool b => b
  | .num q => q != 0
  | .str s => s != ""
  | .arr _ => true
  | .obj _ => true

/-- First binding of `key` in an object's field list.  JSON objects produced
by `JSON.parse` have unique keys, so "first" is "the" binding. -/
def lookupField : List (String × JsonValue) → String → Option JsonValue
  | [], _ => none
  | (k, v) :: rest, key => if k == key then some v else lookupField rest key

/-- JS property read `p[key]`: `none` models `undefined`.  Reading a property
of `null` throws in JS; the pipeline below checks for `null` before the first
read, and no later value can be `null`, so totality here is faithful. -/
def getField : JsonValue → String → Option JsonValue
  | .obj fields, key => lookupField fields key
  | _, _ => none

/-- Truthiness of a possibly-`undefined` JS expression. -/
def truthyOpt : Option JsonValue → Bool
  | some v => truthy v
  | none => false

/-- JS `a || b`: the left operand if truthy, otherwise the fallback. -/
def jsOr (v : Option JsonValue) (fallback : JsonValue) : JsonValue :=
  match v with
  | some x => if truthy x then x else fallback
  | none => fallback

/-- JS property assignment on a field list: overwrite in place if the key is
present, append otherwise (JS objects keep insertion order). -/
def setFields : List (String × JsonValue) → String → JsonValue → List (String × JsonValue)
  | [], key, v => [(key, v)]
  | (k, w) :: rest, key, v =>
      if k == key then (key, v) :: rest else (k, w) :: setFields rest key v

/-- JS property assignment `p[key] = v`.  On a primitive it is a no-op in the
model; the source never assigns to a primitive (every assignment is guarded
by a truthy field read, which only objects can satisfy). -/
def setField (p : JsonValue) (key : String) (v : JsonValue) : JsonValue :=
  match p with
  | .obj fields => .obj (setFields fields key v)
  | other => other

/-- Chart kinds known to the renderer (`switch` in `renderChart`). -/
inductive ChartKind where
  | line
  | bar
deriving DecidableEq

/-- The one JS fault the normalizer can raise: reading a property of `null`
(a decoded payload equal to JSON `null`). -/
inductive JsFault where
  | typeError
deriving DecidableEq

/-- Observable outcome of `renderChart`.  `structureMismatch raw` is the
yellow "Chart data unavailable (Structure mismatch)" diagnostic block, which
displays the original raw payload; `chart payload kind` is a rendered chart
carrying the fully adapted payload; `renderError` is the caught error branch
around the chart-type dispatch (a truthy non-string `type`);
`nothing` is the early `return null`. -/
inductive RenderResult where
  | nothing
  | structureMismatch (raw : JsonValue)
  | chart (payload : JsonValue) (kind : ChartKind)
  | renderError

/-- Step 0 of `renderChart`: if the payload is a string, `JSON.parse` it; on
parse failure the exception is caught and the raw string is kept.  The host
`JSON.parse` is modelled as an oracle returning `none` on parse failure. -/
def decodeStep (parse : String → Option JsonValue) : JsonValue → JsonValue
  | .str s => (parse s).getD (.str s)
  | other => other

/-- Step 1 ("Matrioska fix"): if the payload has a truthy `chart_data` field,
descend into it once. -/
def unwrapStep (p : JsonValue) : JsonValue :=
  match getField p "chart_data" with
  | some c => if truthy c then c else p
  | none => p

/-- The default dataset synthesized by the axis-pair rule ("Caso D"). -/
def defaultDataset (label : JsonValue) (ys : List JsonValue) : JsonValue :=
  .obj [("label", label), ("data", .arr ys),
        ("borderColor", .str "rgba(54, 162, 235, 1)"),
        ("backgroundColor", .str "rgba(54, 162, 235, 0.2)"),
        ("borderWidth", .num 2)]

/-- "Caso D": the agent used parallel `x`/`y` arrays under `data`; replace
`data` with a `labels`/`datasets` object, naming the single series after
`ylabel || title || "Value"`. -/
def caseD (p : JsonValue) : JsonValue :=
  match getField p "data" with
  | some d =>
    if truthy d then
      match getField d "x", getField d "y" with
      | some (.arr xs), some (.arr ys) =>
          let label := jsOr (getField d "ylabel") (jsOr (getField d "title") (.str "Value"))
          setField p "data"
            (.obj [("labels", .arr xs), ("datasets", .arr [defaultDataset label ys])])
      | _, _ => p
    else p
  | none => p

/-- "Caso A": the agent forgot the `data` wrapper; relocate a top-level
`datasets` under a fresh `data` object, pairing it with `labels || []`. -/
def caseA (p : JsonValue) : JsonValue :=
  if truthyOpt (getField p "data") then p
  else
    match getField p "datasets" with
    | some ds =>
      if truthy ds then
        setField p "data"
          (.obj [("labels", jsOr (getField p "labels") (.arr [])), ("datasets", ds)])
      else p
    | none => p

/-- JS `Array.isArray(v) ? v : [v]`. -/
def ensureArray (v : JsonValue) : JsonValue :=
  match v with
  | .arr xs => .arr xs
  | other => .arr [other]

/-- "Caso B": a singular `dataset` under `data` and no `datasets`; wrap it
into a one-element collection. -/
def caseB (p : JsonValue) : JsonValue :=
  match getField p "data" with
  | some d =>
    if truthy d then
      match getField d "dataset" with
      | some ds =>
        if truthy ds && !(truthyOpt (getField d "datasets")) then
          setField p "data" (setField d "datasets" (ensureArray ds))
        else p
      | none => p
    else p
  | none => p

/-- "Caso C": a singular `dataset` at the root and no `data`; synthesize the
`data` object from the root. -/
def caseC (p : JsonValue) : JsonValue :=
  if truthyOpt (getField p "data") then p
  else
    match getField p "dataset" with
    | some ds =>
      if truthy ds then
        setField p "data"
          (.obj [("labels", jsOr (getField p "labels") (.arr [])),
                 ("datasets", ensureArray ds)])
      else p
    | none => p

/-- The chart-type dispatch at the end of `renderChart`: falsy `type`
defaults to a line chart, `'bar'` (case-insensitively) renders a bar chart,
any other string falls into the `default:` line branch, and a truthy
non-string `type` makes `type.toLowerCase()` throw inside the `try`,
yielding the caught "Error rendering visualization." branch. -/
def finalizeChart (p : JsonValue) : RenderResult :=
  match getField p "type" with
  | some t =>
    if truthy t then
      match t with
      | .str s => .chart p (if jsToLower s = "bar" then .bar else .line)
      | _ => .renderError
    else .chart p .line
  | none => .chart p .line

/-- Final validation of `renderChart`: `!chartPayload.data ||
!chartPayload.data.datasets` yields the structure-mismatch diagnostic
carrying the ORIGINAL raw payload; note that no emptiness or length check is
performed on `datasets`. -/
def validateStep (raw p : JsonValue) : RenderResult :=
  match getField p "data" with
  | some d =>
    if truthy d then
      if truthyOpt (getField d "datasets") then finalizeChart p
      else .structureMismatch raw
    else .structureMismatch raw
  | none => .structureMismatch raw

/-- The chart payload normalizer of `ChatInterface.tsx` (`renderChart`),
parameterized by the host JSON decoder.  A falsy payload returns `null`
immediately; a decoded payload equal to JSON `null` faults with a
`TypeError` at the very first property read (`chartPayload.chart_data`);
otherwise the adaptation rules run in source order and the final validation
either renders or produces the diagnostic block. -/
def renderChart (parse : String → Option JsonValue) (rawPayload : JsonValue) :
    Except JsFault RenderResult :=
  if truthy rawPayload then
    match decodeStep parse rawPayload with
    | .null => .error .typeError
    | p => .ok (validateStep rawPayload (caseC (caseB (caseA (caseD (unwrapStep p))))))
  else .ok .nothing

/-- A canonical chart description: a kind, labels, a collection of named
series, and opaque pass-through options. -/
structure CanonicalChart where
  kind : ChartKind
  labels : List String
  series : List (String × List ℚ)
  options : JsonValue

/-- The lowercase wire form of a chart kind. -/
def ChartKind.toTypeStr : ChartKind → String
  | .line => "line"
  | .bar => "bar"

/-- Wire form of a named series (a Chart.js dataset). -/
def encodeSeries (s : String × List ℚ) : JsonValue :=
  .obj [("label", .str s.1), ("data", .arr (s.2.map JsonValue.num))]

/-- Wire form of a canonical chart; exactly the shape `renderChart` is meant
to converge on. -/
def CanonicalChart.toJson (c : CanonicalChart) : JsonValue :=
  .obj [("type", .str c.kind.toTypeStr),
        ("data", .obj [("labels", .arr (c.labels.map JsonValue.str)),
                       ("datasets", .arr (c.series.map encodeSeries))]),
        ("options", c.options)]

/-- Displayable color: either a fixed hex code or an `hsl(h, s%, l%)`
triple. -/
inductive Color where
  | hex (code : String)
  | hsl (h s l : ℚ)
deriving DecidableEq

/-- `calculateDynamicColor` of `EuropePriceMap.tsx`: negative prices get the
fixed electric blue, a degenerate range gets the fixed neutral hue, and
otherwise the price is clamped into `[minP, maxP]` and the hue interpolated
linearly from 140 (green) down to 0 (red). -/
def calculateDynamicColor (price minP maxP : ℚ) : Color :=
  if price < 0 then .hex "#3b82f6"
  else if maxP = minP then .hsl 80 85 50
  else
    let safePrice := min (max price minP) maxP
    let ratio := (safePrice - minP) / (maxP - minP)
    .hsl (140 - ratio * 140) 80 45

/-- One hour's snapshot of zone prices (`null` entries are absent data). -/
structure PriceSnapshot where
  hour : Int
  prices : List (String × Option ℚ)

/-- The non-negative present prices of one snapshot, in iteration order
(negatives are routed to the fixed blue, not the continuous scale). -/
def snapshotNonNegPrices (snap : PriceSnapshot) : List ℚ :=
  snap.prices.filterMap (fun zp =>
    match zp.2 with
    | some v => if 0 ≤ v then some v else none
    | none => none)

/-- All non-negative present prices across the whole day, hour by hour (the
`allPrices` accumulation loop). -/
def allNonNegPrices : List PriceSnapshot → List ℚ
  | [] => []
  | h :: t => snapshotNonNegPrices h ++ allNonNegPrices t

/-- `hasValidPrices`: some snapshot carries some present price. -/
def hasAnyData (hours : List PriceSnapshot) : Bool :=
  hours.any (fun h => h.prices.any (fun zp => zp.2.isSome))

/-- Robust range over a value list: empty input falls back to `(0, 100)`;
otherwise sort ascending and select the entries at indices
`floor(n * 0.05)` and `floor(n * 0.95)` (`n * 5 / 100` and `n * 95 / 100`
in exact arithmetic). -/
def computeRobustRange (values : List ℚ) : ℚ × ℚ :=
  if values.isEmpty then (0, 100)
  else
    let sorted := List.insertionSort (fun a b => a ≤ b) values
    let n := sorted.length
    (sorted.getD (n * 5 / 100) 0, sorted.getD (n * 95 / 100) 0)

/-- The `minPrice`/`maxPrice` memo of `EuropePriceMap.tsx`: fall back to
`(0, 100)` when there is no data at all, otherwise apply the robust range to
every non-negative present price of the day. -/
def robustRange (hours : List PriceSnapshot) : ℚ × ℚ :=
  if hasAnyData hours then computeRobustRange (allNonNegPrices hours)
  else (0, 100)

/-- The static `ZONE_TO_ISO3` table: market-zone code to ISO3 region,
many-to-one. -/
def ZONE_TO_ISO3 : List (String × String) :=
  [("CH", "CHE"), ("DE", "DEU"), ("FR", "FRA"), ("AT", "AUT"),
   ("IT", "ITA"), ("ES", "ESP"), ("NL", "NLD"), ("BE", "BEL"),
   ("PL", "POL"), ("FI", "FIN"), ("PT", "PRT"),
   ("UK", "GBR"), ("GB", "GBR"),
   ("NO2", "NOR"), ("NO", "NOR"),
   ("SE3", "SWE"), ("SE", "SWE"),
   ("DK1", "DNK"), ("DK", "DNK")]

/-- Case-insensitive zone resolution (`ZONE_TO_ISO3[zoneCode.toUpperCase()]`,
with the JS truthiness test `if (iso3)`; every table value is a non-empty
string, so presence and truthiness coincide). -/
def zoneToIso3 (zoneCode : String) : Option String :=
  ZONE_TO_ISO3.lookup (jsToUpper zoneCode)

/-- `Map.set` on an association list: overwrite the value of an existing key
in place, append a fresh key at the end. -/
def mapSet (m : List (String × ℚ)) (key : String) (v : ℚ) : List (String × ℚ) :=
  if m.any (fun e => e.1 == key) then
    m.map (fun e => if e.1 == key then (key, v) else e)
  else m ++ [(key, v)]

/-- The `priceMap` memo: find the snapshot for the selected hour (absent
hour yields the empty map), then insert each present price under its
resolved region; insertion order makes a later alias overwrite an earlier
one. -/
def forHour (hours : List PriceSnapshot) (hour : Int) : List (String × ℚ) :=
  match hours.find? (fun h => h.hour == hour) with
  | none => []
  | some snap =>
      snap.prices.foldl (fun m zp =>
        match zp.2 with
        | none => m
        | some v =>
          match zoneToIso3 zp.1 with
          | none => m
          | some iso3 => mapSet m iso3 v) []

/-- Specification of the "last alias wins" rule: the price of the LAST
zone/price pair in iteration order whose price is present and whose zone
resolves to the given region (later pairs take precedence). -/
def lastResolved : List (String × Option ℚ) → String → Option ℚ
  | [], _ => none
  | zp :: rest, region =>
    match lastResolved rest region with
    | some v => some v
    | none =>
      match zp.2 with
      | some v => if zoneToIso3 zp.1 = some region then some v else none
      | none => none

/-- Renderer-ready styling of one series in `ForecastsChart`. -/
structure SeriesStyle where
  strokeWidth : ℚ
  strokeOpacity : ℚ
deriving DecidableEq

/-- Per-series styling of `ForecastsChart`: the highlighted series gets a
heavy stroke at full opacity, every other series is dimmed to opacity 0.15
while a highlight is active, and without a highlight all series share the
uniform default (width 2, opacity 1). -/
def seriesStyle (highlighted : Option String) (key : String) : SeriesStyle :=
  let isActive := highlighted == some key
  let isDimmed := highlighted.isSome && !isActive
  { strokeWidth := if isActive then 4 else 2,
    strokeOpacity := if isDimmed then 0.15 else 1 }

/-- `handleLegendClick`: clicking the already-highlighted series clears the
highlight, clicking any series name highlights it. -/
def handleLegendClick (highlighted : Option String) (dataKey : String) : Option String :=
  if highlighted == some dataKey then none else some dataKey

/-! Theorems. -/

/-- C1, counterexample.  For the one-snapshot series
`[⟨12, DE ↦ 50, FR ↦ -5, PL ↦ 500⟩]` the code collects BOTH non-negative
prices `[50, 500]`, and with `n = 2` the 95th-percentile index
`⌊2 · 0.95⌋ = 1` selects 500, so the range is `(50, 500)`, not the claimed
`(50, 50)`; consequently `colorFor(50, range)` is the cheap-endpoint hue,
not the neutral degenerate hue. -/
theorem robustRange_endToEnd_counterexample :
    robustRange [⟨12, [("DE", some 50), ("FR", some (-5)), ("PL", some 500)]⟩] = (50, 500) ∧
    robustRange [⟨12, [("DE", some 50), ("FR", some (-5)), ("PL", some 500)]⟩]
      ≠ ((50 : ℚ), (50 : ℚ)) ∧
    calculateDynamicColor 50 50 500 ≠ Color.hsl 80 85 50 := by
  refine ⟨by decide, by decide, by norm_num [calculateDynamicColor, min_def, max_def]⟩

/-- C1, amended.  The series `[⟨12, DE ↦ 50, FR ↦ -5, PL ↦ 500⟩]` with
percentiles 0.05/0.95 yields the range `(50, 500)` (FR excluded as negative,
PL's 500 retained since `⌊2 · 0.95⌋ = 1` selects it); `colorFor(50, range)`
is the cheap-endpoint hue `hsl(140, 80%, 45%)`; `colorFor(-5, range)` is the
fixed negative-price color `#3b82f6`. -/
theorem robustRange_endToEnd_amended :
    robustRange [⟨12, [("DE", some 50), ("FR", some (-5)), ("PL", some 500)]⟩] = (50, 500) ∧
    calculateDynamicColor 50 50 500 = Color.hsl 140 80 45 ∧
    calculateDynamicColor (-5) 50 500 = Color.hex "#3b82f6" := by
  refine ⟨by decide, by norm_num [calculateDynamicColor, min_def, max_def], by decide⟩

/-- C2, counterexample.  The empty string is not valid encoded JSON, yet
`renderChart` returns `null` for it (the falsy early return), not a
`NormalizationFailure` surfaced as a rendering placeholder. -/
theorem unparseable_counterexample :
    renderChart (fun _ => none) (.str "") = .ok .nothing := rfl

/-- C2, amended.  A non-empty string payload that fails to decode is NOT
short-circuited into a distinct `Unparseable` failure: the parse exception
is caught, the raw string falls through every adaptation rule unchanged, and
the final validation surfaces the same `StructureMismatch` rendering
placeholder used for shape failures, carrying the raw payload, with nothing
thrown further up.  (The empty string instead hits the falsy early return
and renders nothing.) -/
theorem unparseable_fallthrough (parse : String → Option JsonValue) (s : String)
    (hs : s ≠ "") (hp : parse s = none) :
    renderChart parse (.str s) = .ok (.structureMismatch (.str s)) := by
  simp [renderChart, truthy, hs, decodeStep, hp, unwrapStep, getField, caseD, caseA,
    caseB, caseC, validateStep, truthyOpt]

/-- Witness for `unparseable_fallthrough` at the concrete unparseable
payload `"not json"`. -/
theorem unparseable_fallthrough_witness :
    renderChart (fun _ => none) (.str "not json") = .ok (.structureMismatch (.str "not json")) :=
  unparseable_fallthrough (fun _ => none) "not json" (by decide) rfl

/-- C5.  The axis-pair payload `{data: {x: [0,1,2], y: [10,20,30],
ylabel: "Price"}}` normalizes to a line chart with exactly one series
labelled `"Price"`, values `[10,20,30]` and labels `[0,1,2]`; and when no
`ylabel`/`title` is provided the default label `"Value"` is used. -/
theorem normalize_axisPair :
    renderChart (fun _ => none)
      (.obj [("data", .obj [("x", .arr [.num 0, .num 1, .num 2]),
                            ("y", .arr [.num 10, .num 20, .num 30]),
                            ("ylabel", .str "Price")])]) =
      .ok (.chart
        (.obj [("data", .obj [("labels", .arr [.num 0, .num 1, .num 2]),
                              ("datasets", .arr [.obj [("label", .str "Price"),
                                ("data", .arr [.num 10, .num 20, .num 30]),
                                ("borderColor", .str "rgba(54, 162, 235, 1)"),
                                ("backgroundColor", .str "rgba(54, 162, 235, 0.2)"),
                                ("borderWidth", .num 2)]])])])
        .line) ∧
    renderChart (fun _ => none)
      (.obj [("data", .obj [("x", .arr [.num 0]), ("y", .arr [.num 7])])]) =
      .ok (.chart
        (.obj [("data", .obj [("labels", .arr [.num 0]),
                              ("datasets", .arr [.obj [("label", .str "Value"),
                                ("data", .arr [.num 7]),
                                ("borderColor", .str "rgba(54, 162, 235, 1)"),
                                ("backgroundColor", .str "rgba(54, 162, 235, 0.2)"),
                                ("borderWidth", .num 2)]])])])
        .line) :=
  ⟨rfl, rfl⟩

/-- C3, counterexample.  The decoded payload `{data: {datasets: []}}` has an
EMPTY series collection, so per the claim it must yield a StructureMismatch
failure — but the final validation only checks that `data` and
`data.datasets` are truthy (an empty array is truthy), so it renders a line
chart instead. -/
theorem structureMismatch_counterexample :
    renderChart (fun _ => none) (.obj [("data", .obj [("datasets", .arr [])])]) =
      .ok (.chart (.obj [("data", .obj [("datasets", .arr [])])]) .line) := rfl

/-- C9.  With a highlight set, exactly the matching series is emphasized
(stroke 4, opacity 1) and every other series is dimmed (stroke 2, opacity
0.15); with no highlight all series get the uniform default (stroke 2,
opacity 1); clicking the highlighted legend entry clears the highlight and
clicking any other entry selects it. -/
theorem highlight_styling_correct (name key : String) (highlighted : Option String) :
    seriesStyle none key = ⟨2, 1⟩ ∧
    seriesStyle (some name) name = ⟨4, 1⟩ ∧
    (key ≠ name → seriesStyle (some name) key = ⟨2, 0.15⟩) ∧
    handleLegendClick (some name) name = none ∧
    (highlighted ≠ some key → handleLegendClick highlighted key = some key) := by
  refine ⟨rfl, ?_, ?_, ?_, ?_⟩
  · simp [seriesStyle]
  · intro h
    simp [seriesStyle, beq_iff_eq, Ne.symm h]
  · simp [handleLegendClick]
  · intro h
    simp [handleLegendClick, beq_iff_eq, h]

/-- Witness for `highlight_styling_correct` at concrete series names. -/
theorem highlight_styling_correct_witness :
    seriesStyle (some "Spot Price") "Wind Forecast" = ⟨2, 0.15⟩ ∧
    handleLegendClick none "Spot Price" = some "Spot Price" :=
  ⟨(highlight_styling_correct "Spot Price" "Wind Forecast" none).2.2.1 (by decide),
   (highlight_styling_correct "Spot Price" "Spot Price" none).2.2.2.2 (by simp)⟩

/-- The chart-type dispatch never produces the structure-mismatch
diagnostic. -/
theorem finalizeChart_ne_mismatch (x q : JsonValue) :
    finalizeChart x ≠ .structureMismatch q := by
  unfold finalizeChart
  cases h : getField x "type" with
  | none => simp
  | some t =>
    by_cases ht : truthy t = true
    · cases t <;> simp [ht]
    · simp [ht]

/-- Whenever the final validation fails, the diagnostic carries exactly the
original raw payload. -/
theorem validateStep_mismatch_raw (raw x q : JsonValue)
    (h : validateStep raw x = .structureMismatch q) : q = raw := by
  unfold validateStep at h
  split at h
  · split at h
    · split at h
      · exact absurd h (finalizeChart_ne_mismatch x q)
      · exact (RenderResult.structureMismatch.inj h).symm
    · exact (RenderResult.structureMismatch.inj h).symm
  · exact (RenderResult.structureMismatch.inj h).symm

/-- C3, amended.  The normalizer is total — it never raises — EXCEPT for a
string payload whose decode is JSON `null`, where the first property read
(`chartPayload.chart_data`) throws a `TypeError`; whenever it fails it
yields the StructureMismatch rendering placeholder carrying exactly the
original raw payload; and the empty object `{}` yields that StructureMismatch
failure.  The validation behind the failure only checks that `data` and
`data.datasets` are truthy: series non-emptiness and value/label length
agreement are NOT checked (see the counterexample). -/
theorem normalize_total_structureMismatch (parse : String → Option JsonValue) (p : JsonValue) :
    ((truthy p = true → decodeStep parse p ≠ .null) → ∃ r, renderChart parse p = .ok r) ∧
    (∀ q, renderChart parse p = .ok (.structureMismatch q) → q = p) ∧
    renderChart parse (.obj []) = .ok (.structureMismatch (.obj [])) ∧
    (∀ s, truthy (JsonValue.str s) = true → parse s = some .null →
      renderChart parse (.str s) = .error .typeError) := by
  refine ⟨?_, ?_, rfl, ?_⟩
  · intro h
    by_cases ht : truthy p = true
    · have hd := h ht
      unfold renderChart
      rw [if_pos ht]
      rcases hdec : decodeStep parse p with _ | b | n | s | a | o
      · exact absurd hdec hd
      all_goals exact ⟨_, rfl⟩
    · exact ⟨.nothing, by simp [renderChart, ht]⟩
  · intro q hq
    unfold renderChart at hq
    by_cases ht : truthy p = true
    · rw [if_pos ht] at hq
      split at hq
      · exact absurd hq (by simp)
      · exact validateStep_mismatch_raw p _ q (Except.ok.inj hq)
    · rw [if_neg ht] at hq
      exact absurd (Except.ok.inj hq) (by simp)
  · intro s hts hp
    simp [renderChart, hts, decodeStep, hp]

/-- Witness for `normalize_total_structureMismatch`: the totality clause at
the non-JSON string `"hello"` and the `TypeError` clause at a string
decoding to JSON `null`. -/
theorem normalize_total_structureMismatch_witness :
    (∃ r, renderChart (fun _ => none) (.str "hello") = .ok r) ∧
    renderChart (fun _ => some .null) (.str "x") = .error .typeError :=
  ⟨(normalize_total_structureMismatch (fun _ => none) (.str "hello")).1
      (fun _ => by simp [decodeStep]),
   (normalize_total_structureMismatch (fun _ => some .null) (.str "x")).2.2.2 "x"
      (by decide) rfl⟩

/-- C4.  A payload already in canonical shape — a known kind, a `data`
object holding `labels` plus a non-empty `datasets` collection of matching
lengths, and opaque `options` — passes through `renderChart` unchanged: no
adaptation rule fires (each is the identity on it) and the rendered chart
carries exactly the input payload with its own kind. -/
theorem normalize_canonical_id (parse : String → Option JsonValue) (c : CanonicalChart)
    (hne : c.series ≠ []) (hlen : ∀ s ∈ c.series, s.2.length = c.labels.length) :
    unwrapStep c.toJson = c.toJson ∧
    caseD c.toJson = c.toJson ∧
    caseA c.toJson = c.toJson ∧
    caseB c.toJson = c.toJson ∧
    caseC c.toJson = c.toJson ∧
    renderChart parse c.toJson = .ok (.chart c.toJson c.kind) := by
  obtain ⟨k, ls, ss, os⟩ := c
  cases k <;> exact ⟨rfl, rfl, rfl, rfl, rfl, rfl⟩

/-- Witness for `normalize_canonical_id` at a concrete one-series bar
chart. -/
theorem normalize_canonical_id_witness :
    renderChart (fun _ => none)
      (CanonicalChart.toJson ⟨.bar, ["a"], [("s", [1])], .null⟩) =
      .ok (.chart (CanonicalChart.toJson ⟨.bar, ["a"], [("s", [1])], .null⟩) .bar) :=
  (normalize_canonical_id (fun _ => none) ⟨.bar, ["a"], [("s", [1])], .null⟩
    (by simp) (by decide)).2.2.2.2.2

/-- C6.  The robust range returns the fixed fallback `(0, 100)` on empty
input; on any non-empty sequence of non-negative values it returns
`low ≤ high` with both endpoints MEMBERS of the input (hence within
`[min(values), max(values)]`); and on a single-element sequence the two
endpoints coincide. -/
theorem computeRobustRange_correct (values : List ℚ) :
    computeRobustRange [] = (0, 100) ∧
    (values ≠ [] → (∀ v ∈ values, 0 ≤ v) →
      (computeRobustRange values).1 ≤ (computeRobustRange values).2 ∧
      (computeRobustRange values).1 ∈ values ∧
      (computeRobustRange values).2 ∈ values) ∧
    (∀ v : ℚ, computeRobustRange [v] = (v, v)) := by
  refine ⟨rfl, ?_, fun v => by simp [computeRobustRange]⟩
  intro hne _
  have hempty : values.isEmpty = false := by
    cases values with
    | nil => exact absurd rfl hne
    | cons a t => rfl
  have hval : computeRobustRange values =
      (let s := List.insertionSort (fun a b => a ≤ b) values
       (s.getD (s.length * 5 / 100) 0, s.getD (s.length * 95 / 100) 0)) := by
    unfold computeRobustRange
    rw [hempty]
    rfl
  rw [hval]
  have hlen : (List.insertionSort (fun a b => a ≤ b) values).length = values.length :=
    List.length_insertionSort _ _
  have hpos : 0 < (List.insertionSort (fun a b => a ≤ b) values).length := by
    rw [hlen]
    exact List.length_pos.mpr hne
  have h95 : (List.insertionSort (fun a b => a ≤ b) values).length * 95 / 100 <
      (List.insertionSort (fun a b => a ≤ b) values).length :=
    Nat.div_lt_of_lt_mul (by omega)
  have h5le : (List.insertionSort (fun a b => a ≤ b) values).length * 5 / 100 ≤
      (List.insertionSort (fun a b => a ≤ b) values).length * 95 / 100 :=
    Nat.div_le_div_right (by omega)
  have h5 : (List.insertionSort (fun a b => a ≤ b) values).length * 5 / 100 <
      (List.insertionSort (fun a b => a ≤ b) values).length := lt_of_le_of_lt h5le h95
  have hgd1 : (List.insertionSort (fun a b => a ≤ b) values).getD
      ((List.insertionSort (fun a b => a ≤ b) values).length * 5 / 100) 0 =
      (List.insertionSort (fun a b => a ≤ b) values).get ⟨_, h5⟩ :=
    List.getD_eq_getElem _ _ h5
  have hgd2 : (List.insertionSort (fun a b => a ≤ b) values).getD
      ((List.insertionSort (fun a b => a ≤ b) values).length * 95 / 100) 0 =
      (List.insertionSort (fun a b => a ≤ b) values).get ⟨_, h95⟩ :=
    List.getD_eq_getElem _ _ h95
  have hsorted : (List.insertionSort (fun a b => a ≤ b) values).Sorted (fun a b => a ≤ b) :=
    List.sorted_insertionSort _ _
  refine ⟨?_, ?_, ?_⟩
  · show (List.insertionSort (fun a b => a ≤ b) values).getD _ 0 ≤
      (List.insertionSort (fun a b => a ≤ b) values).getD _ 0
    rw [hgd1, hgd2]
    exact hsorted.rel_get_of_le h5le
  · show (List.insertionSort (fun a b => a ≤ b) values).getD _ 0 ∈ values
    rw [hgd1]
    exact (List.perm_insertionSort _ values).mem_iff.mp (List.get_mem _ _ _)
  · show (List.insertionSort (fun a b => a ≤ b) values).getD _ 0 ∈ values
    rw [hgd2]
    exact (List.perm_insertionSort _ values).mem_iff.mp (List.get_mem _ _ _)

/-- Witness for `computeRobustRange_correct` at the concrete value list
`[2, 1]`. -/
theorem computeRobustRange_correct_witness :
    (computeRobustRange [2, 1]).1 ≤ (computeRobustRange [2, 1]).2 ∧
    (computeRobustRange [2, 1]).1 ∈ ([2, 1] : List ℚ) ∧
    (computeRobustRange [2, 1]).2 ∈ ([2, 1] : List ℚ) :=
  (computeRobustRange_correct [2, 1]).2.1 (by decide) (by decide)

/-- C7.  Over a non-degenerate non-negative range the color scale is
monotone: for `low ≤ a ≤ b ≤ high` both prices map to scale hues with the
hue of the cheaper price no smaller (no closer to the red endpoint 0) than
that of the dearer one; a price at or above `high` clamps to the expensive
endpoint hue 0 and a non-negative price at or below `low` clamps to the
cheap endpoint hue 140. -/
theorem colorFor_monotone (lo hi : ℚ) (h0 : 0 ≤ lo) (hlh : lo < hi) :
    (∀ a b : ℚ, lo ≤ a → a ≤ b → b ≤ hi →
      ∃ ha hb : ℚ, calculateDynamicColor a lo hi = .hsl ha 80 45 ∧
        calculateDynamicColor b lo hi = .hsl hb 80 45 ∧ hb ≤ ha) ∧
    (∀ p : ℚ, hi ≤ p → calculateDynamicColor p lo hi = .hsl 0 80 45) ∧
    (∀ p : ℚ, 0 ≤ p → p ≤ lo → calculateDynamicColor p lo hi = .hsl 140 80 45) := by
  have hne : hi ≠ lo := ne_of_gt hlh
  have hpos : (0 : ℚ) < hi - lo := sub_pos.mpr hlh
  refine ⟨?_, ?_, ?_⟩
  · intro a b hla hab hbh
    have ha0 : ¬a < 0 := not_lt.mpr (le_trans h0 hla)
    have hb0 : ¬b < 0 := not_lt.mpr (le_trans h0 (le_trans hla hab))
    have hca : min (max a lo) hi = a := by
      rw [max_eq_left hla, min_eq_left (le_trans hab hbh)]
    have hcb : min (max b lo) hi = b := by
      rw [max_eq_left (le_trans hla hab), min_eq_left hbh]
    refine ⟨140 - (a - lo) / (hi - lo) * 140, 140 - (b - lo) / (hi - lo) * 140, ?_, ?_, ?_⟩
    · simp only [calculateDynamicColor, if_neg ha0, if_neg hne, hca]
    · simp only [calculateDynamicColor, if_neg hb0, if_neg hne, hcb]
    · have hr : (a - lo) / (hi - lo) ≤ (b - lo) / (hi - lo) := by
        gcongr
      nlinarith [hr]
  · intro p hp
    have hp0 : ¬p < 0 := not_lt.mpr (le_trans (le_trans h0 hlh.le) hp)
    have hc : min (max p lo) hi = hi := by
      rw [max_eq_left (le_trans hlh.le hp)]
      exact min_eq_right hp
    simp only [calculateDynamicColor, if_neg hp0, if_neg hne, hc]
    rw [div_self hpos.ne']
    norm_num
  · intro p hp0 hpl
    have hnlt : ¬p < 0 := not_lt.mpr hp0
    have hc : min (max p lo) hi = lo := by
      rw [max_eq_right hpl]
      exact min_eq_left hlh.le
    simp only [calculateDynamicColor, if_neg hnlt, if_neg hne, hc]
    norm_num

/-- Witness for `colorFor_monotone` on the concrete range `(0, 100)` with
prices 10 and 20, the clamped price 200, and the low endpoint 0. -/
theorem colorFor_monotone_witness :
    (∃ ha hb : ℚ, calculateDynamicColor 10 0 100 = .hsl ha 80 45 ∧
      calculateDynamicColor 20 0 100 = .hsl hb 80 45 ∧ hb ≤ ha) ∧
    calculateDynamicColor 200 0 100 = .hsl 0 80 45 ∧
    calculateDynamicColor 0 0 100 = .hsl 140 80 45 :=
  ⟨(colorFor_monotone 0 100 le_rfl (by norm_num)).1 10 20 (by norm_num) (by norm_num)
      (by norm_num),
   (colorFor_monotone 0 100 le_rfl (by norm_num)).2.1 200 (by norm_num),
   (colorFor_monotone 0 100 le_rfl (by norm_num)).2.2 0 le_rfl le_rfl⟩

/-- After `mapSet m key v`, looking up `key` yields `v` (the insertion either
overwrote the existing binding or appended a fresh one). -/
theorem mapSet_lookup_self (m : List (String × ℚ)) (key : String) (v : ℚ) :
    (mapSet m key v).lookup key = some v := by
  unfold mapSet
  by_cases h : m.any (fun e => e.1 == key) = true
  · rw [if_pos h]
    induction m with
    | nil => simp at h
    | cons e rest ih =>
      obtain ⟨ek, ev⟩ := e
      rcases he : ek == key with _ | _
      · have hrest : rest.any (fun e => e.1 == key) = true := by
          rcases List.any_eq_true.mp h with ⟨x, hx, hpx⟩
          rcases List.mem_cons.mp hx with rfl | hx'
          · rw [he] at hpx
            exact absurd hpx (by simp)
          · exact List.any_eq_true.mpr ⟨x, hx', hpx⟩
        have he2 : (key == ek) = false :=
          beq_eq_false_iff_ne.mpr fun x => beq_eq_false_iff_ne.mp he x.symm
        have hhead : (if (ek == key) = true then ((key, v) : String × ℚ) else (ek, ev)) =
            (ek, ev) := by
          rw [he]
          simp
        simp only [List.map_cons, hhead, List.lookup_cons, he2]
        exact ih hrest
      · have hkey : ek = key := eq_of_beq he
        subst hkey
        have hhead : (if (ek == ek) = true then ((ek, v) : String × ℚ) else (ek, ev)) =
            (ek, v) := by simp
        simp only [List.map_cons, hhead, List.lookup_cons_self]
  · rw [if_neg h]
    induction m with
    | nil => simp [List.lookup_cons]
    | cons e rest ih =>
      obtain ⟨ek, ev⟩ := e
      have he : (ek == key) = false := by
        rcases hb : ek == key with _ | _
        · rfl
        · exact absurd (List.any_eq_true.mpr ⟨(ek, ev), List.mem_cons_self _ _, hb⟩) h
      have he2 : (key == ek) = false :=
        beq_eq_false_iff_ne.mpr fun x => beq_eq_false_iff_ne.mp he x.symm
      have hrest : ¬rest.any (fun e => e.1 == key) = true := by
        intro hr
        rcases List.any_eq_true.mp hr with ⟨x, hx, hpx⟩
        exact h (List.any_eq_true.mpr ⟨x, List.mem_cons_of_mem _ hx, hpx⟩)
      simp only [List.cons_append, List.lookup_cons, he2]
      exact ih hrest

/-- `mapSet m key v` leaves the binding of every other key unchanged. -/
theorem mapSet_lookup_other (m : List (String × ℚ)) (key other : String) (v : ℚ)
    (hne : other ≠ key) :
    (mapSet m key v).lookup other = m.lookup other := by
  have hok : (other == key) = false := beq_eq_false_iff_ne.mpr hne
  unfold mapSet
  by_cases h : m.any (fun e => e.1 == key) = true
  · rw [if_pos h]
    clear h
    induction m with
    | nil => rfl
    | cons e rest ih =>
      obtain ⟨ek, ev⟩ := e
      rcases he : ek == key with _ | _
      · have hhead : (if (ek == key) = true then ((key, v) : String × ℚ) else (ek, ev)) =
            (ek, ev) := by
          rw [he]
          simp
        rcases hoe : other == ek with _ | _
        · simp only [List.map_cons, hhead, List.lookup_cons, hoe]
          exact ih
        · simp only [List.map_cons, hhead, List.lookup_cons, hoe]
      · have hkey : ek = key := eq_of_beq he
        subst hkey
        have hhead : (if (ek == ek) = true then ((ek, v) : String × ℚ) else (ek, ev)) =
            (ek, v) := by simp
        simp only [List.map_cons, hhead, List.lookup_cons, hok]
        exact ih
  · rw [if_neg h]
    clear h
    induction m with
    | nil => simp [List.lookup_cons, hok]
    | cons e rest ih =>
      obtain ⟨ek, ev⟩ := e
      rcases hoe : other == ek with _ | _
      · simp only [List.cons_append, List.lookup_cons, hoe]
        exact ih
      · simp [List.cons_append, List.lookup_cons, hoe]

/-- Unfolding equation of `lastResolved` on a cons cell. -/
theorem lastResolved_cons (zp : String × Option ℚ) (rest : List (String × Option ℚ))
    (region : String) :
    lastResolved (zp :: rest) region =
      match lastResolved rest region with
      | some v => some v
      | none =>
        match zp.2 with
        | some v => if zoneToIso3 zp.1 = some region then some v else none
        | none => none := rfl

/-- An absent price contributes nothing to `lastResolved`. -/
theorem lastResolved_cons_none (zk : String) (rest : List (String × Option ℚ))
    (region : String) :
    lastResolved ((zk, none) :: rest) region = lastResolved rest region := by
  rw [lastResolved_cons]
  cases lastResolved rest region <;> rfl

/-- A pair whose zone does not resolve to the region contributes nothing to
`lastResolved`. -/
theorem lastResolved_cons_no_contrib (zk : String) (v : ℚ)
    (rest : List (String × Option ℚ)) (region : String)
    (h : ¬zoneToIso3 zk = some region) :
    lastResolved ((zk, some v) :: rest) region = lastResolved rest region := by
  rw [lastResolved_cons]
  cases lastResolved rest region
  · show (if zoneToIso3 zk = some region then some v else none) = none
    exact if_neg h
  · rfl

/-- A later binding takes precedence over the head pair. -/
theorem lastResolved_cons_keep (zk : String) (zv : Option ℚ)
    (rest : List (String × Option ℚ)) (region : String) (w : ℚ)
    (hrest : lastResolved rest region = some w) :
    lastResolved ((zk, zv) :: rest) region = some w := by
  rw [lastResolved_cons, hrest]

/-- With no later binding, a resolving head pair supplies the price. -/
theorem lastResolved_cons_contrib (zk : String) (v : ℚ)
    (rest : List (String × Option ℚ)) (region : String)
    (h : zoneToIso3 zk = some region)
    (hrest : lastResolved rest region = none) :
    lastResolved ((zk, some v) :: rest) region = some v := by
  rw [lastResolved_cons, hrest]
  show (if zoneToIso3 zk = some region then some v else none) = some v
  exact if_pos h

/-- Accumulating the price map over the zone/price pairs realizes the
"last alias wins" lookup: a binding produced by the pairs overrides the
accumulator, and absent regions fall back to the accumulator. -/
theorem foldl_mapSet_lookup (prices : List (String × Option ℚ)) (m : List (String × ℚ))
    (region : String) :
    (prices.foldl (fun m zp =>
        match zp.2 with
        | none => m
        | some v =>
          match zoneToIso3 zp.1 with
          | none => m
          | some iso3 => mapSet m iso3 v) m).lookup region =
      match lastResolved prices region with
      | some v => some v
      | none => m.lookup region := by
  induction prices generalizing m with
  | nil => rfl
  | cons zp rest ih =>
    obtain ⟨zk, zv⟩ := zp
    cases zv with
    | none =>
      simp only [List.foldl_cons]
      rw [ih, lastResolved_cons_none]
    | some v =>
      cases hz : zoneToIso3 zk with
      | none =>
        simp only [List.foldl_cons, hz]
        rw [ih, lastResolved_cons_no_contrib zk v rest region (by rw [hz]; simp)]
      | some iso3 =>
        simp only [List.foldl_cons, hz]
        rw [ih]
        cases hlast : lastResolved rest region with
        | some w =>
          rw [lastResolved_cons_keep zk (some v) rest region w hlast]
        | none =>
          by_cases hr : iso3 = region
          · subst hr
            rw [lastResolved_cons_contrib zk v rest iso3 hz hlast]
            exact mapSet_lookup_self m iso3 v
          · rw [lastResolved_cons_no_contrib zk v rest region
              (by rw [hz]; exact fun e => hr (Option.some.inj e)), hlast]
            exact mapSet_lookup_other m iso3 region v fun e => hr e.symm

/-- C8.  When no snapshot matches the selected hour the per-hour price map
is empty; when a snapshot matches, the map binds each region exactly to the
price of the LAST zone/price pair (in iteration order) whose price is
present and whose zone code resolves case-insensitively to that region —
in particular a later zone alias overwrites an earlier one, and regions
with no resolving pair are absent. -/
theorem forHour_correct (hours : List PriceSnapshot) (hour : Int) :
    (hours.find? (fun h => h.hour == hour) = none → forHour hours hour = []) ∧
    (∀ snap, hours.find? (fun h => h.hour == hour) = some snap →
      ∀ region, (forHour hours hour).lookup region = lastResolved snap.prices region) := by
  constructor
  · intro h
    unfold forHour
    rw [h]
  · intro snap hsnap region
    unfold forHour
    rw [hsnap]
    rw [foldl_mapSet_lookup snap.prices [] region]
    cases lastResolved snap.prices region <;> rfl

/-- Witness for `forHour_correct`: in a snapshot where both `"NO2"` and
`"NO"` resolve to `"NOR"`, the later pair wins and the map binds `"NOR"` to
20. -/
theorem forHour_correct_witness :
    (forHour [⟨12, [("NO2", some 10), ("NO", some 20)]⟩] 12).lookup "NOR" =
      lastResolved [("NO2", some 10), ("NO", some 20)] "NOR" ∧
    lastResolved [("NO2", some 10), ("NO", some 20)] "NOR" = some 20 :=
  ⟨(forHour_correct [⟨12, [("NO2", some 10), ("NO", some 20)]⟩] 12).2
      ⟨12, [("NO2", some 10), ("NO", some 20)]⟩ rfl "NOR",
   by decide⟩

/-- A day in which every present price is negative contributes no value at
all to the continuous color scale. -/
theorem allNonNegPrices_of_allNegative :
    ∀ hours : List PriceSnapshot,
      (∀ h ∈ hours, ∀ zp ∈ h.prices, zp.2.all (fun v => decide (v < 0)) = true) →
      allNonNegPrices hours = []
  | [], _ => rfl
  | h :: t, hneg => by
    have h1 : snapshotNonNegPrices h = [] := by
      unfold snapshotNonNegPrices
      rw [List.filterMap_eq_nil_iff]
      intro zp hzp
      have hz := hneg h (List.mem_cons_self _ _) zp hzp
      cases hv : zp.2 with
      | none => rfl
      | some v =>
        rw [hv] at hz
        have hvlt : v < 0 := of_decide_eq_true hz
        simp only [hv]
        rw [if_neg (not_le.mpr hvlt)]
    have h2 : allNonNegPrices t = [] :=
      allNonNegPrices_of_allNegative t
        (fun h' hh' => hneg h' (List.mem_cons_of_mem _ hh'))
    show snapshotNonNegPrices h ++ allNonNegPrices t = []
    rw [h1, h2]
    rfl

/-- C10.  A non-empty series in which every present price is negative gets
the SAME fixed fallback range `(0, 100)` as an empty series: the data
passes the has-any-data check, but the non-negative collection is empty and
the robust range falls back, so the continuous scale is computed from the
fallback rather than from the data. -/
theorem robustRange_allNegative_fallback (hours : List PriceSnapshot)
    (hne : hours ≠ [])
    (hneg : ∀ h ∈ hours, ∀ zp ∈ h.prices, zp.2.all (fun v => decide (v < 0)) = true) :
    robustRange hours = (0, 100) ∧ robustRange [] = (0, 100) := by
  refine ⟨?_, rfl⟩
  have hall : allNonNegPrices hours = [] := allNonNegPrices_of_allNegative hours hneg
  unfold robustRange
  rw [hall]
  by_cases hd : hasAnyData hours = true
  · rw [if_pos hd]
    rfl
  · rw [if_neg hd]

/-- Witness for `robustRange_allNegative_fallback` at a one-snapshot series
holding a single negative price. -/
theorem robustRange_allNegative_fallback_witness :
    robustRange [⟨0, [("DE", some (-5))]⟩] = (0, 100) :=
  (robustRange_allNegative_fallback [⟨0, [("DE", some (-5))]⟩] (by simp) (by decide)).1

end EnergySensemaker
